import Mathlib

/-!
Verification of the Bootforge-usb core against its specification.

Shallow embedding of the relevant Rust source:
  * `src/protocols/dfu.rs` — DFU enums, response/descriptor parsers, the
    `DfuClient` state cache and its download loop;
  * `src/communication/bulk.rs` — bulk read retry loop and chunked write;
  * `src/handshake/*.rs` and `src/model.rs` — the protocol classifier.

Machine bytes are modelled as `Nat` (with explicit `< 256` bounds where a
claim needs them); Rust `Result` becomes `Except`; device I/O is modelled by
explicit oracles (call index → outcome), matching the "mock device" phrasing
of the spec's testable properties.
-/

namespace Bootforge

/-- DFU states (dfu.rs `DfuState`). -/
inductive DfuState where
  | AppIdle
  | AppDetach
  | DfuIdle
  | DfuDnloadSync
  | DfuDnBusy
  | DfuDnloadIdle
  | DfuManifestSync
  | DfuManifest
  | DfuManifestWaitReset
  | DfuUploadIdle
  | DfuError
  deriving DecidableEq, Repr

/-- Rust `DfuState::from_byte` (dfu.rs lines 58-72): any unrecognized byte decodes
to `DfuError`. -/
def DfuState.from_byte (b : Nat) : DfuState :=
  match b with
  | 0 => .AppIdle
  | 1 => .AppDetach
  | 2 => .DfuIdle
  | 3 => .DfuDnloadSync
  | 4 => .DfuDnBusy
  | 5 => .DfuDnloadIdle
  | 6 => .DfuManifestSync
  | 7 => .DfuManifest
  | 8 => .DfuManifestWaitReset
  | 9 => .DfuUploadIdle
  | _ => .DfuError

/-- Rust `DfuState::is_dfu_mode` (dfu.rs lines 92-94). -/
def DfuState.is_dfu_mode : DfuState → Bool
  | .AppIdle => false
  | .AppDetach => false
  | _ => true

/-- DFU status codes (dfu.rs `DfuStatus`). -/
inductive DfuStatus where
  | Ok
  | ErrTarget
  | ErrFile
  | ErrWrite
  | ErrErase
  | ErrCheckErased
  | ErrProg
  | ErrVerify
  | ErrAddress
  | ErrNotdone
  | ErrFirmware
  | ErrVendor
  | ErrUsbr
  | ErrPor
  | ErrUnknown
  | ErrStalledPkt
  deriving DecidableEq, Repr

/-- Rust `DfuStatus::from_byte` (dfu.rs lines 137-156): the wildcard arm maps
everything not in `0x00..=0x0E` to `ErrStalledPkt`. -/
def DfuStatus.from_byte (b : Nat) : DfuStatus :=
  match b with
  | 0x00 => .Ok
  | 0x01 => .ErrTarget
  | 0x02 => .ErrFile
  | 0x03 => .ErrWrite
  | 0x04 => .ErrErase
  | 0x05 => .ErrCheckErased
  | 0x06 => .ErrProg
  | 0x07 => .ErrVerify
  | 0x08 => .ErrAddress
  | 0x09 => .ErrNotdone
  | 0x0A => .ErrFirmware
  | 0x0B => .ErrVendor
  | 0x0C => .ErrUsbr
  | 0x0D => .ErrPor
  | 0x0E => .ErrUnknown
  | _ => .ErrStalledPkt

/-- Rust `DfuStatus::is_ok` (dfu.rs lines 181-183). -/
def DfuStatus.is_ok : DfuStatus → Bool
  | .Ok => true
  | _ => false

/-- DFU GET_STATUS response (dfu.rs `DfuStatusResponse`). -/
structure DfuStatusResponse where
  status : DfuStatus
  poll_timeout : Nat
  state : DfuState
  i_string : Nat
  deriving DecidableEq, Repr

/-- Rust `DfuStatusResponse::from_bytes` (dfu.rs lines 201-212): fails when fewer
than 6 bytes are supplied, otherwise reads status from byte 0, the poll
timeout as `u32::from_le_bytes([data[1], data[2], data[3], 0])`, the state
from byte 4 and the string index from byte 5. -/
def DfuStatusResponse.from_bytes (data : List Nat) :
    Except String DfuStatusResponse :=
  if data.length < 6 then
    .error "Status response too short"
  else
    .ok { status := DfuStatus.from_byte (data.getD 0 0)
          poll_timeout :=
            data.getD 1 0 + 256 * data.getD 2 0 + 65536 * data.getD 3 0
          state := DfuState.from_byte (data.getD 4 0)
          i_string := data.getD 5 0 }

/-- DFU functional descriptor (dfu.rs `DfuFunctionalDescriptor`). -/
structure DfuFunctionalDescriptor where
  will_detach : Bool
  manifestation_tolerant : Bool
  can_upload : Bool
  can_download : Bool
  detach_timeout : Nat
  transfer_size : Nat
  dfu_version : Nat
  deriving DecidableEq, Repr

/-- Rust `DfuFunctionalDescriptor::from_bytes` (dfu.rs lines 236-254): fails when
fewer than 9 bytes are supplied; bytes 0-1 (length / descriptor type) are
ignored; byte 2 is the attributes byte masked with 0x08/0x04/0x02/0x01; the
three u16 fields are little-endian from bytes 3-4, 5-6, 7-8. -/
def DfuFunctionalDescriptor.from_bytes (data : List Nat) :
    Except String DfuFunctionalDescriptor :=
  if data.length < 9 then
    .error "Functional descriptor too short"
  else
    let attributes := data.getD 2 0
    .ok { will_detach := attributes &&& 0x08 ≠ 0
          manifestation_tolerant := attributes &&& 0x04 ≠ 0
          can_upload := attributes &&& 0x02 ≠ 0
          can_download := attributes &&& 0x01 ≠ 0
          detach_timeout := data.getD 3 0 + 256 * data.getD 4 0
          transfer_size := data.getD 5 0 + 256 * data.getD 6 0
          dfu_version := data.getD 7 0 + 256 * data.getD 8 0 }

/-- The transport library's error enumeration (`rusb::Error`), kept opaque by
the core except for the three retryable variants (errors.rs embeds it in
`UsbError::UsbLib`).  The rusb `Io` variant is named `IoErr` here. -/
inductive RusbError where
  | IoErr
  | InvalidParam
  | Access
  | NoDevice
  | NotFound
  | Busy
  | Timeout
  | Overflow
  | Pipe
  | Interrupted
  | NoMem
  | NotSupported
  | BadDescriptor
  | Other
  deriving DecidableEq, Repr

/-- The crate's error enumeration (errors.rs `UsbError`).  The `Io` variant
is named `IoErr` here. -/
inductive UsbError where
  | Platform (msg : String)
  | DeviceNotFound (msg : String)
  | PermissionDenied (msg : String)
  | UsbLib (e : RusbError)
  | IoErr (msg : String)
  | Parse (msg : String)
  | Unknown (msg : String)
  deriving DecidableEq, Repr

/-- Rust `is_retryable` (bulk.rs lines 309-317): only `UsbLib` wrapping
Timeout/Busy/Interrupted is retryable. -/
def is_retryable : UsbError → Bool
  | .UsbLib .Timeout => true
  | .UsbLib .Busy => true
  | .UsbLib .Interrupted => true
  | _ => false

/-- A mock bulk endpoint: call index ↦ outcome of `handle.bulk_read` (or
`bulk_write`).  For reads the payload is the returned data; for writes it is
the accepted byte count.  This is the spec's "mock device handle". -/
abbrev BulkOracle (α : Type) := Nat → Except UsbError α

/-- Rust `BulkTransfer::read` (bulk.rs lines 47-65), with the attempt counter made
explicit.  The source loops `for attempt in 0..=max_retries`, returning the
successful payload, retrying (after a sleep, irrelevant here) only when
`attempt < max_retries && is_retryable(&e)`, and otherwise returning the
error; the post-loop `last_error` return is unreachable. -/
def read_attempts (dev : BulkOracle α) (max_retries attempt : Nat) :
    Except UsbError α :=
  match dev attempt with
  | .ok b => .ok b
  | .error e =>
      if h : attempt < max_retries ∧ is_retryable e then
        read_attempts dev max_retries (attempt + 1)
      else
        .error e
termination_by max_retries + 1 - attempt
decreasing_by omega

/-- Rust `BulkTransfer::read` entry point: start at attempt 0. -/
def bulk_read (dev : BulkOracle α) (max_retries : Nat) : Except UsbError α :=
  read_attempts dev max_retries 0

/-- Rust's `slice::chunks`: split into consecutive pieces of length
`n`, the last possibly shorter.  For `n = 0` (where Rust panics) we return
`[]`. -/
def listChunks (n : Nat) : List α → List (List α)
  | [] => []
  | a :: rest =>
      if _h : n = 0 then []
      else (a :: rest).take n :: listChunks n ((a :: rest).drop n)
termination_by l => l.length
decreasing_by
  simp only [List.length_drop, List.length_cons]
  omega

/-- Rust `BulkTransfer::write_chunked` inner loop (bulk.rs lines 98-112) over the
remaining chunk list.  `dev i c` is the outcome of `write_single` for the
`i`-th underlying write of chunk `c`.  Returns the total bytes written plus
the trace of chunks actually issued; the loop `break`s as soon as a chunk is
written short. -/
def write_chunks (dev : Nat → List Nat → Except UsbError Nat) :
    List (List Nat) → Nat → Nat → Except UsbError (Nat × List (List Nat))
  | [], _, total => .ok (total, [])
  | c :: cs, i, total =>
      match dev i c with
      | .error e => .error e
      | .ok written =>
          if written < c.length then
            .ok (total + written, [c])
          else
            match write_chunks dev cs (i + 1) (total + written) with
            | .error e => .error e
            | .ok (t, tr) => .ok (t, c :: tr)

/-- Rust `BulkTransfer::write_chunked` (bulk.rs lines 98-112). -/
def write_chunked (dev : Nat → List Nat → Except UsbError Nat)
    (buf : List Nat) (chunk_size : Nat) :
    Except UsbError (Nat × List (List Nat)) :=
  write_chunks dev (listChunks chunk_size buf) 0 0

/-- Contents of a fixed-size stack buffer after a control read: the device
wrote `data` (truncated to the buffer length `len`); untouched bytes keep
their zero initialisation (`let mut buf = [0u8; len]`).  The result always
has length `len`, whatever count the read reported. -/
def fillBuf (len : Nat) (data : List Nat) : List Nat :=
  data.take len ++ List.replicate (len - data.length) 0

/-- Outcome of one underlying control transfer: the bytes the device wrote
(empty for host-to-device writes), or a transport error. -/
abbrev CtrlOutcome := Except UsbError (List Nat)

/-- Rust `DfuClient` session state (dfu.rs lines 263-269); the device handle is
replaced by per-call outcomes. -/
structure DfuClient where
  interface : Nat
  transfer_size : Nat
  timeout_ms : Nat
  state : DfuState
  deriving DecidableEq, Repr

/-- Rust `DfuClient::new` (dfu.rs lines 282-290): 10 s timeout, cached state
`DfuIdle`. -/
def DfuClient.new (interface transfer_size : Nat) : DfuClient :=
  { interface := interface, transfer_size := transfer_size,
    timeout_ms := 10000, state := .DfuIdle }

/-- Rust `DfuClient::get_status` (dfu.rs lines 304-322): issue GETSTATUS into a
fixed 6-byte buffer, parse the whole buffer, and cache the parsed state.  A
transport error propagates before the cache is touched. -/
def DfuClient.get_status (c : DfuClient) (o : CtrlOutcome) :
    DfuClient × Except UsbError DfuStatusResponse :=
  match o with
  | .error e => (c, .error e)
  | .ok data =>
      match DfuStatusResponse.from_bytes (fillBuf 6 data) with
      | .error e => (c, .error (.Parse e))
      | .ok status => ({ c with state := status.state }, .ok status)

/-- Rust `DfuClient::get_state` (dfu.rs lines 325-340): issue GETSTATE into a
1-byte buffer and cache the decoded state. -/
def DfuClient.get_state (c : DfuClient) (o : CtrlOutcome) :
    DfuClient × Except UsbError DfuState :=
  match o with
  | .error e => (c, .error e)
  | .ok data =>
      let s := DfuState.from_byte ((fillBuf 1 data).getD 0 0)
      ({ c with state := s }, .ok s)

/-- Rust `DfuClient::clear_status` (dfu.rs lines 343-356): issues CLRSTATUS; the
cached state is not touched. -/
def DfuClient.clear_status (c : DfuClient) (o : CtrlOutcome) :
    DfuClient × Except UsbError Unit :=
  match o with
  | .error e => (c, .error e)
  | .ok _ => (c, .ok ())

/-- Rust `DfuClient::abort` (dfu.rs lines 359-373): issues ABORT and, on success,
resets the cached state to `DfuIdle`. -/
def DfuClient.abort (c : DfuClient) (o : CtrlOutcome) :
    DfuClient × Except UsbError Unit :=
  match o with
  | .error e => (c, .error e)
  | .ok _ => ({ c with state := .DfuIdle }, .ok ())

/-- Rust `DfuClient::detach` (dfu.rs lines 376-389): takes `&self`; no state
change. -/
def DfuClient.detach (c : DfuClient) (_timeout_ms : Nat) (o : CtrlOutcome) :
    DfuClient × Except UsbError Unit :=
  match o with
  | .error e => (c, .error e)
  | .ok _ => (c, .ok ())

/-- Rust `DfuClient::download_block` (dfu.rs lines 392-405): takes `&self`; no
state change. -/
def DfuClient.download_block (c : DfuClient) (_block_num : Nat)
    (_data : List Nat) (o : CtrlOutcome) : DfuClient × Except UsbError Unit :=
  match o with
  | .error e => (c, .error e)
  | .ok _ => (c, .ok ())

/-- Rust `DfuClient::upload_block` (dfu.rs lines 408-419): takes `&self`; returns
the read count; no state change. -/
def DfuClient.upload_block (c : DfuClient) (_block_num : Nat)
    (o : CtrlOutcome) : DfuClient × Except UsbError Nat :=
  match o with
  | .error e => (c, .error e)
  | .ok data => (c, .ok data.length)

/-- The primitive `DfuClient` operations, for quantifying over "every
operation". -/
inductive DfuOp where
  | GetStatus
  | GetState
  | ClearStatus
  | Abort
  | Detach (timeout_ms : Nat)
  | Dnload (block_num : Nat) (data : List Nat)
  | Upload (block_num : Nat)
  deriving DecidableEq, Repr

/-- Run one primitive operation against one control-transfer outcome and keep
the resulting client (the cached-state effect of each method above). -/
def runOp (op : DfuOp) (o : CtrlOutcome) (c : DfuClient) : DfuClient :=
  match op with
  | .GetStatus => (c.get_status o).1
  | .GetState => (c.get_state o).1
  | .ClearStatus => (c.clear_status o).1
  | .Abort => (c.abort o).1
  | .Detach t => (c.detach t o).1
  | .Dnload b d => (c.download_block b d o).1
  | .Upload b => (c.upload_block b o).1

/-- ASCII lowercasing of one character (Rust `to_lowercase` /
`eq_ignore_ascii_case`, restricted to ASCII, which is all the classifier's
keyword patterns use). -/
def asciiLowerChar (c : Char) : Char :=
  if 'A' ≤ c && c ≤ 'Z' then Char.ofNat (c.toNat + 32) else c

/-- Lowercase a string (as a character list). -/
def lowerStr (s : List Char) : List Char := s.map asciiLowerChar

/-- Rust `str::eq_ignore_ascii_case`. -/
def eqIgnoreAsciiCase (a b : List Char) : Bool :=
  lowerStr a = lowerStr b

/-- Does `needle` occur at the head of `hay`? -/
def matchesAt : List Char → List Char → Bool
  | _, [] => true
  | [], _ :: _ => false
  | h :: hs, n :: ns => h = n && matchesAt hs ns

/-- Rust `str::contains` for literal patterns: substring occurrence. -/
def hasSub : List Char → List Char → Bool
  | hay, needle =>
      match hay with
      | [] => needle.isEmpty
      | _ :: rest => matchesAt hay needle || hasSub rest needle

/-- Rust `UsbId` (model.rs lines 10-13). -/
structure UsbId where
  vid : Nat
  pid : Nat
  deriving DecidableEq, Repr

/-- Rust `UsbDescriptorSummary` (model.rs lines 46-55). -/
structure UsbDescriptorSummary where
  manufacturer : Option (List Char)
  product : Option (List Char)
  serial_number : Option (List Char)
  device_class : Option Nat
  device_subclass : Option Nat
  device_protocol : Option Nat
  usb_version : Option (List Char)
  deriving DecidableEq, Repr

/-- Rust `UsbDeviceRecord` (model.rs lines 108-123), restricted to the fields the
classifier reads (`id`, `descriptor`, `tags`); `location`, `driver`,
`health` and `raw_data` appear in no classification rule. -/
structure UsbDeviceRecord where
  id : UsbId
  descriptor : UsbDescriptorSummary
  tags : List (List Char)
  deriving DecidableEq, Repr

/-- Rust `UsbDeviceRecord::has_tag` (model.rs lines 126-128): case-insensitive
membership. -/
def UsbDeviceRecord.has_tag (r : UsbDeviceRecord) (tag : List Char) : Bool :=
  r.tags.any (fun t => eqIgnoreAsciiCase t tag)

/-- Rust `UsbDeviceRecord::add_tag` (model.rs lines 130-135): push unless already
present (case-sensitive `contains`). -/
def UsbDeviceRecord.add_tag (r : UsbDeviceRecord) (tag : List Char) :
    UsbDeviceRecord :=
  if tag ∈ r.tags then r else { r with tags := r.tags ++ [tag] }

/-- Rust `is_adb_device` (adb_probe.rs lines 4-38). -/
def is_adb_device (r : UsbDeviceRecord) : Bool :=
  (r.id.vid = 0x18d1 && (0x4ee1 ≤ r.id.pid && r.id.pid ≤ 0x4ee7))
  || (r.id.vid = 0x04e8 && (r.id.pid = 0x6860 || r.id.pid = 0x6864))
  || ((r.descriptor.device_class = some 0xFF)
      && (match r.descriptor.product with
          | some p => hasSub (lowerStr p) ("adb".toList)
          | none => false))
  || r.has_tag ("adb".toList)

/-- Rust `is_fastboot_device` (fastboot_probe.rs lines 4-31). -/
def is_fastboot_device (r : UsbDeviceRecord) : Bool :=
  (r.id.vid = 0x18d1
      && (r.id.pid = 0x4ee0 || r.id.pid = 0xd00d || r.id.pid = 0x0d02))
  || (r.id.vid = 0x05c6 && r.id.pid = 0x9008)
  || (match r.descriptor.product with
      | some p =>
          hasSub (lowerStr p) ("fastboot".toList)
          || hasSub (lowerStr p) ("bootloader".toList)
      | none => false)
  || r.has_tag ("fastboot".toList)

/-- The known Apple device PID table (apple_probe.rs lines 14-19). -/
def apple_device_pids : List Nat :=
  [0x1290, 0x1291, 0x1292, 0x1293,
   0x12a0, 0x12a1, 0x12a2, 0x12a3,
   0x1294, 0x1297, 0x129a, 0x129c,
   0x12ab, 0x12ac]

/-- Rust `is_apple_device` (apple_probe.rs lines 4-44): note the early
`return false` when the vendor id is not Apple's — the tag check is never
reached for non-Apple vendor ids. -/
def is_apple_device (r : UsbDeviceRecord) : Bool :=
  if r.id.vid ≠ 0x05ac then false
  else
    (r.id.pid ∈ apple_device_pids)
    || (match r.descriptor.manufacturer with
        | some m => hasSub (lowerStr m) ("apple".toList)
        | none => false)
    || (match r.descriptor.product with
        | some p =>
            hasSub (lowerStr p) ("iphone".toList)
            || hasSub (lowerStr p) ("ipad".toList)
            || hasSub (lowerStr p) ("ipod".toList)
        | none => false)
    || r.has_tag ("apple".toList)

/-- Rust `is_mtp_device` (mtp_probe.rs lines 4-44). -/
def is_mtp_device (r : UsbDeviceRecord) : Bool :=
  ((r.descriptor.device_class = some 0x06)
      && (r.descriptor.device_subclass = some 0x01)
      && (r.descriptor.device_protocol = some 0x01))
  || (match r.descriptor.product with
      | some p =>
          hasSub (lowerStr p) ("mtp".toList)
          || hasSub (lowerStr p) ("media transfer".toList)
      | none => false)
  || (match r.descriptor.manufacturer with
      | some m =>
          hasSub (lowerStr m) ("android".toList)
          && (r.descriptor.device_class = some 0x00
              || r.descriptor.device_class = some 0xFF)
      | none => false)
  || r.has_tag ("mtp".toList)

/-- Rust `DeviceProtocol` (handshake/mod.rs lines 8-15). -/
inductive DeviceProtocol where
  | Adb
  | Fastboot
  | AppleDevice
  | Mtp
  | Unknown
  deriving DecidableEq, Repr

/-- Rust `classify_device_protocols` (handshake/mod.rs lines 18-46): push each
matching protocol in probe order; if none matched, push `Unknown`. -/
def classify_device_protocols (r : UsbDeviceRecord) : List DeviceProtocol :=
  let ps :=
    (if is_adb_device r then [DeviceProtocol.Adb] else [])
    ++ (if is_fastboot_device r then [DeviceProtocol.Fastboot] else [])
    ++ (if is_apple_device r then [DeviceProtocol.AppleDevice] else [])
    ++ (if is_mtp_device r then [DeviceProtocol.Mtp] else [])
  if ps = [] then [DeviceProtocol.Unknown] else ps

/-- Control requests a DFU download session issues (the observable trace). -/
inductive DfuReq where
  | GetStatusReq
  | AbortReq
  | DnloadReq (block_num : Nat) (len : Nat)
  deriving DecidableEq, Repr

/-- Running state of a download session: the client (with its cached state),
the number of GETSTATUS calls made so far, the request trace, and the list of
first arguments passed to the progress callback. -/
structure DlSt where
  client : DfuClient
  gs_count : Nat
  trace : List DfuReq
  progress : List Nat
  deriving DecidableEq, Repr

/-- A mock device's GETSTATUS behaviour: call index ↦ (status, state).
Poll timeouts only feed `thread::sleep` and are irrelevant here; all control
writes on the mock succeed. -/
abbrev GsOracle := Nat → DfuStatus × DfuState

/-- One `get_status` call against the mock: issues GETSTATUS, caches the
reported state (dfu.rs line 320), and returns the response fields. -/
def mockGetStatus (gs : GsOracle) (st : DlSt) : DfuStatus × DfuState × DlSt :=
  let r := gs st.gs_count
  (r.1, r.2,
   { st with client := { st.client with state := r.2 },
             gs_count := st.gs_count + 1,
             trace := st.trace ++ [.GetStatusReq] })

/-- Result of a fueled loop: success, a device-reported error, or fuel
exhaustion (the source loops without bound); each carries the session state
reached. -/
inductive RunRes where
  | ok (st : DlSt)
  | deverr (st : DlSt)
  | fuel_out (st : DlSt)
  deriving DecidableEq, Repr

/-- The session state inside a `RunRes`. -/
def RunRes.st : RunRes → DlSt
  | .ok st => st
  | .deverr st => st
  | .fuel_out st => st

/-- Rust `DfuClient::wait_for_ready` (dfu.rs lines 422-452), fueled: poll
GETSTATUS; a non-OK status is an error; DnloadSync/DnBusy/ManifestSync sleep
and re-poll; DnloadIdle/Idle/Manifest succeed; DfuError and anything else are
errors. -/
def wait_for_ready (gs : GsOracle) : Nat → DlSt → RunRes
  | 0, st => .fuel_out st
  | fuel + 1, st =>
      let r := mockGetStatus gs st
      if ¬ r.1.is_ok then .deverr r.2.2
      else
        match r.2.1 with
        | .DfuDnloadSync | .DfuDnBusy | .DfuManifestSync =>
            wait_for_ready gs fuel r.2.2
        | .DfuDnloadIdle | .DfuIdle | .DfuManifest => .ok r.2.2
        | _ => .deverr r.2.2

/-- The manifestation wait loop at the end of `download` (dfu.rs lines
485-506), fueled: non-OK status errors; Manifest/ManifestSync sleep and
re-poll; ManifestWaitReset/Idle succeed; any other state sleeps 100 ms and
re-polls. -/
def manifest_wait (gs : GsOracle) : Nat → DlSt → RunRes
  | 0, st => .fuel_out st
  | fuel + 1, st =>
      let r := mockGetStatus gs st
      if ¬ r.1.is_ok then .deverr r.2.2
      else
        match r.2.1 with
        | .DfuManifest | .DfuManifestSync => manifest_wait gs fuel r.2.2
        | .DfuManifestWaitReset | .DfuIdle => .ok r.2.2
        | _ => manifest_wait gs fuel r.2.2

/-- The block loop of `DfuClient::download` (dfu.rs lines 462-506), fueled:
while `offset < total`, send a DNLOAD of `min (total - offset)
transfer_size` bytes, wait for ready, advance, and invoke the progress
callback with (offset so far, total); once exhausted, send the empty DNLOAD
and enter the manifestation wait. -/
def download_loop (gs : GsOracle) (transfer_size total wf_fuel mf_fuel : Nat) :
    Nat → Nat → Nat → DlSt → RunRes
  | 0, _, _, st => .fuel_out st
  | fuel + 1, offset, block_num, st =>
      if offset < total then
        let chunk_size := min (total - offset) transfer_size
        let st₁ :=
          { st with trace := st.trace ++ [.DnloadReq block_num chunk_size] }
        match wait_for_ready gs wf_fuel st₁ with
        | .ok st₂ =>
            let st₃ :=
              { st₂ with progress := st₂.progress ++ [offset + chunk_size] }
            download_loop gs transfer_size total wf_fuel mf_fuel fuel
              (offset + chunk_size) (block_num + 1) st₃
        | r => r
      else
        let st₁ := { st with trace := st.trace ++ [.DnloadReq block_num 0] }
        manifest_wait gs mf_fuel st₁

/-- Fresh session state for a client. -/
def init_st (c : DfuClient) : DlSt :=
  { client := c, gs_count := 0, trace := [], progress := [] }

/-- The preamble shared verbatim by `download` (dfu.rs lines 456-460) and
`upload` (dfu.rs lines 511-515): when the cached state is not `DfuIdle`,
issue ABORT (resetting the cache) and re-poll GETSTATUS; otherwise do
nothing. -/
def ensure_idle (gs : GsOracle) (st : DlSt) : DlSt :=
  if st.client.state ≠ .DfuIdle then
    let stA :=
      { st with client := { st.client with state := .DfuIdle },
                trace := st.trace ++ [.AbortReq] }
    (mockGetStatus gs stA).2.2
  else st

/-- Rust `DfuClient::download` (dfu.rs lines 455-507) against a mock device:
preamble, then the block loop from offset 0, block 0. -/
def dfu_download (gs : GsOracle) (c : DfuClient) (firmware : List Nat)
    (wf_fuel mf_fuel loop_fuel : Nat) : RunRes :=
  download_loop gs c.transfer_size firmware.length wf_fuel mf_fuel loop_fuel
    0 0 (ensure_idle gs (init_st c))

/-- Number of firmware blocks: `⌈total / transfer_size⌉`. -/
def num_blocks (total transfer_size : Nat) : Nat :=
  (total + transfer_size - 1) / transfer_size

/-- The mock device of the spec's download property: GETSTATUS reports
`DfuDnBusy` once per block before `DfuDnloadIdle` (two polls per block, for
`nb` blocks), then a successful manifestation phase (`m` polls of
`DfuManifest` followed by `DfuManifestWaitReset`), every response with
status OK. -/
def busy_idle_mock (nb m : Nat) : GsOracle := fun i =>
  if i < 2 * nb then
    (DfuStatus.Ok,
     if i % 2 = 0 then DfuState.DfuDnBusy else DfuState.DfuDnloadIdle)
  else if i < 2 * nb + m then
    (DfuStatus.Ok, DfuState.DfuManifest)
  else
    (DfuStatus.Ok, DfuState.DfuManifestWaitReset)

/-- Number of non-empty DNLOAD requests in a trace (one per firmware
block). -/
def data_block_count (tr : List DfuReq) : Nat :=
  (tr.filter fun r =>
    match r with
    | .DnloadReq _ (_ + 1) => true
    | _ => false).length

/-! ## Theorems -/

/-- C9: `DfuStatus::from_byte` is total and collapses unknown codes — every
byte `0x00..0x0E` maps to the corresponding enumeration value, and every
value `≥ 0x0F` (not only `0x0F` itself) maps to `ErrStalledPkt`. -/
theorem dfu_status_from_byte_collapse :
    (∀ b : Nat, 15 ≤ b → DfuStatus.from_byte b = .ErrStalledPkt)
    ∧ DfuStatus.from_byte 0x00 = .Ok
    ∧ DfuStatus.from_byte 0x01 = .ErrTarget
    ∧ DfuStatus.from_byte 0x02 = .ErrFile
    ∧ DfuStatus.from_byte 0x03 = .ErrWrite
    ∧ DfuStatus.from_byte 0x04 = .ErrErase
    ∧ DfuStatus.from_byte 0x05 = .ErrCheckErased
    ∧ DfuStatus.from_byte 0x06 = .ErrProg
    ∧ DfuStatus.from_byte 0x07 = .ErrVerify
    ∧ DfuStatus.from_byte 0x08 = .ErrAddress
    ∧ DfuStatus.from_byte 0x09 = .ErrNotdone
    ∧ DfuStatus.from_byte 0x0A = .ErrFirmware
    ∧ DfuStatus.from_byte 0x0B = .ErrVendor
    ∧ DfuStatus.from_byte 0x0C = .ErrUsbr
    ∧ DfuStatus.from_byte 0x0D = .ErrPor
    ∧ DfuStatus.from_byte 0x0E = .ErrUnknown := by
  refine ⟨fun b h => ?_, by decide, by decide, by decide, by decide, by decide,
    by decide, by decide, by decide, by decide, by decide, by decide,
    by decide, by decide, by decide, by decide⟩
  obtain ⟨n, rfl⟩ : ∃ n, b = n + 15 := ⟨b - 15, by omega⟩
  rfl

/-- Witness for C9 at the concrete byte 0xC7. -/
theorem dfu_status_from_byte_collapse_witness :
    DfuStatus.from_byte 0xC7 = .ErrStalledPkt :=
  dfu_status_from_byte_collapse.1 0xC7 (by decide)

/-- C3: on any buffer of at least 6 bytes, `DfuStatusResponse::from_bytes`
reads the status from byte 0, the poll timeout as the 24-bit little-endian
value of bytes 1-3, the state from byte 4 (each a closed form of its own
bytes only); the timeout's top byte is zero (value < 2^24) whenever the
bytes are byte-valued; any buffer shorter than 6 bytes fails. -/
theorem dfu_status_response_parse (b0 b1 b2 b3 b4 b5 : Nat) (rest : List Nat) :
    (DfuStatusResponse.from_bytes (b0 :: b1 :: b2 :: b3 :: b4 :: b5 :: rest)
      = .ok { status := DfuStatus.from_byte b0,
              poll_timeout := b1 + 256 * b2 + 65536 * b3,
              state := DfuState.from_byte b4,
              i_string := b5 })
    ∧ (b1 < 256 → b2 < 256 → b3 < 256 →
        ∀ r, DfuStatusResponse.from_bytes (b0 :: b1 :: b2 :: b3 :: b4 :: b5 :: rest)
            = .ok r → r.poll_timeout < 2 ^ 24)
    ∧ (∀ data : List Nat, data.length < 6 →
        DfuStatusResponse.from_bytes data = .error "Status response too short") := by
  have hmain :
      DfuStatusResponse.from_bytes (b0 :: b1 :: b2 :: b3 :: b4 :: b5 :: rest)
        = .ok { status := DfuStatus.from_byte b0,
                poll_timeout := b1 + 256 * b2 + 65536 * b3,
                state := DfuState.from_byte b4,
                i_string := b5 } := by
    simp [DfuStatusResponse.from_bytes]
  refine ⟨hmain, ?_, ?_⟩
  · intro h1 h2 h3 r hr
    rw [hmain] at hr
    injection hr with h
    subst h
    simp only []
    omega
  · intro data hlen
    simp [DfuStatusResponse.from_bytes, if_pos hlen]

/-- Witness for C3 at the concrete buffer of the repository's own test
(`test_status_response`). -/
theorem dfu_status_response_parse_witness :
    DfuStatusResponse.from_bytes [0x00, 0x10, 0x00, 0x00, 0x02, 0x00]
        = .ok { status := .Ok, poll_timeout := 16, state := .DfuIdle,
                i_string := 0 }
    ∧ DfuStatusResponse.from_bytes [1, 2, 3] = .error "Status response too short" := by
  refine ⟨?_, ?_⟩
  · have h := (dfu_status_response_parse 0x00 0x10 0x00 0x00 0x02 0x00 []).1
    simpa using h
  · exact (dfu_status_response_parse 0 0 0 0 0 0 []).2.2 [1, 2, 3] (by decide)

/-- C1 (counterexample): a successful `abort()` — neither GETSTATUS nor
GETSTATE — changes the cached state (from `DfuError` to `DfuIdle`), so the
cached state is not only updated by successful GETSTATUS/GETSTATE calls. -/
theorem abort_modifies_cached_state :
    let c : DfuClient :=
      { interface := 0, transfer_size := 64, timeout_ms := 10000,
        state := .DfuError }
    DfuOp.Abort ≠ DfuOp.GetStatus ∧ DfuOp.Abort ≠ DfuOp.GetState
    ∧ (runOp .Abort (.ok []) c).state ≠ c.state
    ∧ (runOp .Abort (.ok []) c).state = .DfuIdle := by
  decide

/-- C1 (amended): the cached state is only ever updated by a successful
GETSTATUS/GETSTATE call or by a successful `abort()`, which resets it to
`DfuIdle`; every other operation, and every failed operation, leaves the
cache untouched. -/
theorem cached_state_update_sources (op : DfuOp) (o : CtrlOutcome)
    (c : DfuClient) :
    (op ≠ .GetStatus → op ≠ .GetState → op ≠ .Abort → runOp op o c = c)
    ∧ (∀ e : UsbError, runOp op (.error e) c = c)
    ∧ (∀ data : List Nat,
        runOp .Abort (.ok data) c = { c with state := .DfuIdle }) := by
  refine ⟨?_, ?_, ?_⟩
  · intro h1 h2 h3
    cases op with
    | GetStatus => exact absurd rfl h1
    | GetState => exact absurd rfl h2
    | Abort => exact absurd rfl h3
    | ClearStatus =>
        cases o with
        | ok data => rfl
        | error e => rfl
    | Detach t =>
        cases o with
        | ok data => rfl
        | error e => rfl
    | Dnload b d =>
        cases o with
        | ok data => rfl
        | error e => rfl
    | Upload b =>
        cases o with
        | ok data => rfl
        | error e => rfl
  · intro e
    cases op with
    | GetStatus => rfl
    | GetState => rfl
    | ClearStatus => rfl
    | Abort => rfl
    | Detach t => rfl
    | Dnload b d => rfl
    | Upload b => rfl
  · intro data
    rfl

/-- Witness for the amended C1 at a concrete operation and client. -/
theorem cached_state_update_sources_witness :
    runOp .ClearStatus (.ok [])
        { interface := 0, transfer_size := 64, timeout_ms := 10000,
          state := .DfuError }
      = { interface := 0, transfer_size := 64, timeout_ms := 10000,
          state := .DfuError } :=
  (cached_state_update_sources .ClearStatus (.ok [])
      { interface := 0, transfer_size := 64, timeout_ms := 10000,
        state := .DfuError }).1
    (by decide) (by decide) (by decide)

/-- C4: on any buffer of at least 9 bytes, `DfuFunctionalDescriptor::from_bytes`
reads the four capability flags from bits 3, 2, 1, 0 of the attributes byte
(byte 2) and the three u16 fields little-endian from bytes 3-4, 5-6, 7-8;
toggling one attribute bit (XOR with its mask) negates exactly that flag and
leaves every other field unchanged; any buffer shorter than 9 bytes fails. -/
theorem dfu_functional_descriptor_parse
    (b0 b1 attr b3 b4 b5 b6 b7 b8 : Nat) (rest : List Nat) :
    (DfuFunctionalDescriptor.from_bytes
        (b0 :: b1 :: attr :: b3 :: b4 :: b5 :: b6 :: b7 :: b8 :: rest)
      = .ok { will_detach := attr.testBit 3,
              manifestation_tolerant := attr.testBit 2,
              can_upload := attr.testBit 1,
              can_download := attr.testBit 0,
              detach_timeout := b3 + 256 * b4,
              transfer_size := b5 + 256 * b6,
              dfu_version := b7 + 256 * b8 })
    ∧ (DfuFunctionalDescriptor.from_bytes
        (b0 :: b1 :: (attr ^^^ 8) :: b3 :: b4 :: b5 :: b6 :: b7 :: b8 :: rest)
      = .ok { will_detach := !attr.testBit 3,
              manifestation_tolerant := attr.testBit 2,
              can_upload := attr.testBit 1,
              can_download := attr.testBit 0,
              detach_timeout := b3 + 256 * b4,
              transfer_size := b5 + 256 * b6,
              dfu_version := b7 + 256 * b8 })
    ∧ (DfuFunctionalDescriptor.from_bytes
        (b0 :: b1 :: (attr ^^^ 4) :: b3 :: b4 :: b5 :: b6 :: b7 :: b8 :: rest)
      = .ok { will_detach := attr.testBit 3,
              manifestation_tolerant := !attr.testBit 2,
              can_upload := attr.testBit 1,
              can_download := attr.testBit 0,
              detach_timeout := b3 + 256 * b4,
              transfer_size := b5 + 256 * b6,
              dfu_version := b7 + 256 * b8 })
    ∧ (DfuFunctionalDescriptor.from_bytes
        (b0 :: b1 :: (attr ^^^ 2) :: b3 :: b4 :: b5 :: b6 :: b7 :: b8 :: rest)
      = .ok { will_detach := attr.testBit 3,
              manifestation_tolerant := attr.testBit 2,
              can_upload := !attr.testBit 1,
              can_download := attr.testBit 0,
              detach_timeout := b3 + 256 * b4,
              transfer_size := b5 + 256 * b6,
              dfu_version := b7 + 256 * b8 })
    ∧ (DfuFunctionalDescriptor.from_bytes
        (b0 :: b1 :: (attr ^^^ 1) :: b3 :: b4 :: b5 :: b6 :: b7 :: b8 :: rest)
      = .ok { will_detach := attr.testBit 3,
              manifestation_tolerant := attr.testBit 2,
              can_upload := attr.testBit 1,
              can_download := !attr.testBit 0,
              detach_timeout := b3 + 256 * b4,
              transfer_size := b5 + 256 * b6,
              dfu_version := b7 + 256 * b8 })
    ∧ (∀ data : List Nat, data.length < 9 →
        DfuFunctionalDescriptor.from_bytes data
          = .error "Functional descriptor too short") := by
  have hbit : ∀ a k : Nat, decide (a &&& 2 ^ k ≠ 0) = a.testBit k := by
    intro a k
    rw [Nat.and_two_pow]
    cases h : a.testBit k <;> simp [h]
  have hform : ∀ a : Nat,
      DfuFunctionalDescriptor.from_bytes
          (b0 :: b1 :: a :: b3 :: b4 :: b5 :: b6 :: b7 :: b8 :: rest)
        = .ok { will_detach := a.testBit 3,
                manifestation_tolerant := a.testBit 2,
                can_upload := a.testBit 1,
                can_download := a.testBit 0,
                detach_timeout := b3 + 256 * b4,
                transfer_size := b5 + 256 * b6,
                dfu_version := b7 + 256 * b8 } := by
    intro a
    have h8 := hbit a 3
    have h4 := hbit a 2
    have h2 := hbit a 1
    have h1 := hbit a 0
    norm_num at h8 h4 h2 h1
    simp [DfuFunctionalDescriptor.from_bytes, h8, h4, h2, h1]
  have hx : ∀ j : Nat, ∀ k : Nat,
      (attr ^^^ 2 ^ j).testBit k = ((attr.testBit k).xor (decide (j = k))) := by
    intro j k
    rw [Nat.testBit_xor, Nat.testBit_two_pow]
  have tsame : ∀ j k : Nat, j ≠ k →
      (attr ^^^ 2 ^ j).testBit k = attr.testBit k := by
    intro j k hjk
    rw [hx]
    simp [hjk]
  have tflip : ∀ j : Nat, (attr ^^^ 2 ^ j).testBit j = !attr.testBit j := by
    intro j
    rw [hx]
    simp
  refine ⟨hform attr, ?_, ?_, ?_, ?_, ?_⟩
  · have h := hform (attr ^^^ 2 ^ 3)
    rw [tflip 3, tsame 3 2 (by decide), tsame 3 1 (by decide),
      tsame 3 0 (by decide)] at h
    norm_num at h
    simpa using h
  · have h := hform (attr ^^^ 2 ^ 2)
    rw [tflip 2, tsame 2 3 (by decide), tsame 2 1 (by decide),
      tsame 2 0 (by decide)] at h
    norm_num at h
    simpa using h
  · have h := hform (attr ^^^ 2 ^ 1)
    rw [tflip 1, tsame 1 3 (by decide), tsame 1 2 (by decide),
      tsame 1 0 (by decide)] at h
    norm_num at h
    simpa using h
  · have h := hform (attr ^^^ 2 ^ 0)
    rw [tflip 0, tsame 0 3 (by decide), tsame 0 2 (by decide),
      tsame 0 1 (by decide)] at h
    norm_num at h
    simpa using h
  · intro data hlen
    simp [DfuFunctionalDescriptor.from_bytes, if_pos hlen]

/-- Witness for C4 at the repository's own test vector
(`test_functional_descriptor`). -/
theorem dfu_functional_descriptor_parse_witness :
    DfuFunctionalDescriptor.from_bytes
        [0x09, 0x21, 0x0B, 0x00, 0x10, 0x00, 0x01, 0x10, 0x01]
      = .ok { will_detach := true, manifestation_tolerant := false,
              can_upload := true, can_download := true,
              detach_timeout := 4096, transfer_size := 256,
              dfu_version := 272 }
    ∧ DfuFunctionalDescriptor.from_bytes [1, 2, 3]
      = .error "Functional descriptor too short" := by
  refine ⟨?_, ?_⟩
  · have h := (dfu_functional_descriptor_parse
      0x09 0x21 0x0B 0x00 0x10 0x00 0x01 0x10 0x01 []).1
    simpa using h
  · exact (dfu_functional_descriptor_parse 0 0 0 0 0 0 0 0 0 []).2.2.2.2.2
      [1, 2, 3] (by decide)

/-- C8: `get_status` passes its whole fixed 6-byte buffer to the parser, so
whatever the device wrote (even fewer than 6 bytes), the buffer seen by
`DfuStatusResponse::from_bytes` has length 6, the parse succeeds, and the
only errors `get_status` returns are the transport's own, passed through
unchanged — the `Parse` branch is unreachable. -/
theorem get_status_no_parse_error (c : DfuClient) (data : List Nat) :
    (fillBuf 6 data).length = 6
    ∧ (∃ r, DfuStatusResponse.from_bytes (fillBuf 6 data) = .ok r
        ∧ c.get_status (.ok data) = ({ c with state := r.state }, .ok r))
    ∧ (∀ e : UsbError, c.get_status (.error e) = (c, .error e)) := by
  have hlen : (fillBuf 6 data).length = 6 := by
    simp [fillBuf]
    omega
  have hok : ∃ r, DfuStatusResponse.from_bytes (fillBuf 6 data) = .ok r := by
    rw [DfuStatusResponse.from_bytes, if_neg (by omega)]
    exact ⟨_, rfl⟩
  obtain ⟨r, hr⟩ := hok
  refine ⟨hlen, ⟨r, hr, ?_⟩, fun e => rfl⟩
  simp [DfuClient.get_status, hr]

/-- C6: against a mock endpoint that fails with retryable errors on its first
N calls and then succeeds, `BulkTransfer::read` with `max_retries ≥ N`
returns the final successful payload, with `max_retries < N` returns the
last error encountered (the one of attempt `max_retries`); and a
non-retryable error is surfaced immediately, whatever the retry budget. -/
theorem bulk_read_retry (N : Nat) (errs : Nat → UsbError) (payload : List Nat)
    (hretry : ∀ i, i < N → is_retryable (errs i) = true) :
    (∀ max_retries, N ≤ max_retries →
      bulk_read (fun i => if i < N then .error (errs i) else .ok payload)
        max_retries = .ok payload)
    ∧ (∀ max_retries, max_retries < N →
      bulk_read (fun i => if i < N then .error (errs i) else .ok payload)
        max_retries = .error (errs max_retries))
    ∧ (∀ (e : UsbError) (tail : BulkOracle (List Nat)) (max_retries : Nat),
        is_retryable e = false →
        bulk_read (fun i => if i = 0 then .error e else tail i) max_retries
          = .error e) := by
  refine ⟨?_, ?_, ?_⟩
  · intro mr hmr
    have main : ∀ fuel attempt, attempt + fuel = N → attempt ≤ N →
        read_attempts (fun i => if i < N then .error (errs i) else .ok payload)
          mr attempt = .ok payload := by
      intro fuel
      induction fuel with
      | zero =>
          intro attempt h1 _
          rw [read_attempts]
          simp only [Nat.add_zero] at h1
          subst h1
          simp
      | succ n ih =>
          intro attempt h1 h2
          rw [read_attempts]
          have ha : attempt < N := by omega
          simp only [if_pos ha]
          rw [dif_pos ⟨by omega, hretry attempt ha⟩]
          exact ih (attempt + 1) (by omega) (by omega)
    exact main N 0 (by omega) (by omega)
  · intro mr hmr
    have main : ∀ fuel attempt, attempt + fuel = mr → attempt ≤ mr →
        read_attempts (fun i => if i < N then .error (errs i) else .ok payload)
          mr attempt = .error (errs mr) := by
      intro fuel
      induction fuel with
      | zero =>
          intro attempt h1 _
          have heq : attempt = mr := by omega
          rw [read_attempts]
          have ha : attempt < N := by omega
          simp only [if_pos ha]
          rw [dif_neg (by omega), heq]
      | succ n ih =>
          intro attempt h1 h2
          rw [read_attempts]
          have ha : attempt < N := by omega
          simp only [if_pos ha]
          rw [dif_pos ⟨by omega, hretry attempt ha⟩]
          exact ih (attempt + 1) (by omega) (by omega)
    exact main mr 0 (by omega) (by omega)
  · intro e tail mr he
    rw [bulk_read]
    conv_lhs => rw [read_attempts]
    simp [he]

/-- Witness for C6 at N = 3 timeouts then a one-byte payload. -/
theorem bulk_read_retry_witness :
    bulk_read (fun i => if i < 3 then .error (.UsbLib .Timeout) else .ok [7])
        3 = .ok [7]
    ∧ bulk_read (fun i => if i < 3 then .error (.UsbLib .Timeout) else .ok [7])
        2 = .error (.UsbLib .Timeout) := by
  have h := bulk_read_retry 3 (fun _ => .UsbLib .Timeout) [7]
    (fun _ _ => rfl)
  exact ⟨h.1 3 (by decide), h.2.1 2 (by decide)⟩

/-- Every chunk produced by `slice::chunks` has length at most `n`. -/
theorem listChunks_length_le (n : Nat) :
    ∀ (L : Nat) (l : List α), l.length ≤ L →
      ∀ c ∈ listChunks n l, c.length ≤ n := by
  intro L
  induction L with
  | zero =>
      intro l hl c hc
      have : l = [] := List.eq_nil_of_length_eq_zero (by omega)
      subst this
      simp [listChunks] at hc
  | succ L ih =>
      intro l hl c hc
      match l with
      | [] => simp [listChunks] at hc
      | a :: rest =>
          rw [listChunks] at hc
          by_cases hn : n = 0
          · simp [hn] at hc
          · rw [dif_neg hn] at hc
            rcases List.mem_cons.1 hc with h | h
            · subst h
              rw [List.length_take]
              exact Nat.min_le_left _ _
            · refine ih ((a :: rest).drop n) ?_ c h
              simp only [List.length_drop, List.length_cons]
              simp only [List.length_cons] at hl
              omega

/-- The chunks of `slice::chunks` partition the buffer: their lengths sum to
the buffer's length. -/
theorem listChunks_sum_length (n : Nat) (hn : n ≠ 0) :
    ∀ (L : Nat) (l : List α), l.length ≤ L →
      ((listChunks n l).map List.length).sum = l.length := by
  intro L
  induction L with
  | zero =>
      intro l hl
      have : l = [] := List.eq_nil_of_length_eq_zero (by omega)
      subst this
      simp [listChunks]
  | succ L ih =>
      intro l hl
      match l with
      | [] => simp [listChunks]
      | a :: rest =>
          rw [listChunks, dif_neg hn]
          simp only [List.map_cons, List.sum_cons]
          rw [ih ((a :: rest).drop n)
            (by simp only [List.length_drop, List.length_cons]
                simp only [List.length_cons] at hl
                omega)]
          simp only [List.length_take, List.length_drop, List.length_cons]
          omega

/-- Lemma: `slice::chunks` of a nonempty buffer (with nonzero chunk size) is
nonempty. -/
theorem listChunks_ne_nil (n : Nat) (hn : n ≠ 0) (a : α) (rest : List α) :
    listChunks n (a :: rest) ≠ [] := by
  rw [listChunks, dif_neg hn]
  simp

/-- Lemma: `write_chunked`'s loop when every underlying write accepts its whole
chunk: all chunks are written and the accepted counts accumulate. -/
theorem write_chunks_full (dev : Nat → List Nat → Except UsbError Nat)
    (hdev : ∀ idx c, dev idx c = .ok c.length) :
    ∀ (cs : List (List Nat)) (i t : Nat),
      write_chunks dev cs i t = .ok (t + (cs.map List.length).sum, cs) := by
  intro cs
  induction cs with
  | nil => intro i t; simp [write_chunks]
  | cons c cs' ih =>
      intro i t
      rw [write_chunks, hdev i c]
      simp only [lt_self_iff_false, if_false]
      rw [ih (i + 1) (t + c.length)]
      simp [Nat.add_assoc]

/-- Lemma: `write_chunked`'s loop when the `j`-th underlying write (absolute call
index) is short: the loop stops right after it, reporting the bytes accepted
so far. -/
theorem write_chunks_short (dev : Nat → List Nat → Except UsbError Nat)
    (j s : Nat)
    (hfull : ∀ idx c, idx < j → dev idx c = .ok c.length)
    (hshort : ∀ c, dev j c = .ok s) :
    ∀ (cs : List (List Nat)) (i t : Nat), i ≤ j → j - i < cs.length →
      s < (cs.getD (j - i) []).length →
      write_chunks dev cs i t
        = .ok (t + ((cs.take (j - i)).map List.length).sum + s,
               cs.take (j - i + 1)) := by
  intro cs
  induction cs with
  | nil =>
      intro i t _ hj _
      simp at hj
  | cons c cs' ih =>
      intro i t hij0 hj hs
      by_cases hij : i = j
      · subst hij
        have h0 : i - i = 0 := by omega
        rw [h0] at hs ⊢
        rw [write_chunks, hshort c]
        simp only [List.getD_cons_zero] at hs
        simp [hs]
      · have hlt : i < j := by omega
        have hd : j - i = (j - (i + 1)) + 1 := by omega
        rw [write_chunks, hfull i c hlt]
        simp only [lt_self_iff_false, if_false]
        have hs' : s < (cs'.getD (j - (i + 1)) []).length := by
          rw [hd] at hs
          simpa using hs
        have hj' : j - (i + 1) < cs'.length := by
          simp only [List.length_cons] at hj
          omega
        rw [ih (i + 1) (t + c.length) (by omega) hj' hs']
        rw [hd]
        simp [List.take_succ_cons, Nat.add_assoc]

/-- C7: with a configured chunk size smaller than the buffer, chunked bulk
write issues multiple underlying writes, each chunk no larger than the chunk
size; when every write is accepted in full it writes all chunks and returns
the buffer length; and as soon as the `j`-th write is accepted short (s <
chunk length) it stops issuing further chunks and returns the total bytes
written so far. -/
theorem write_chunked_spec (buf : List Nat) (chunk_size j s : Nat)
    (hcs : chunk_size ≠ 0) (hbuf : chunk_size < buf.length)
    (hj : j < (listChunks chunk_size buf).length)
    (hs : s < ((listChunks chunk_size buf).getD j []).length) :
    (∀ c ∈ listChunks chunk_size buf, c.length ≤ chunk_size)
    ∧ 2 ≤ (listChunks chunk_size buf).length
    ∧ (write_chunked (fun _ c => .ok c.length) buf chunk_size
        = .ok (buf.length, listChunks chunk_size buf))
    ∧ (write_chunked (fun i c => if i = j then .ok s else .ok c.length)
        buf chunk_size
        = .ok ((((listChunks chunk_size buf).take j).map List.length).sum + s,
               (listChunks chunk_size buf).take (j + 1))) := by
  refine ⟨fun c hc => listChunks_length_le chunk_size buf.length buf le_rfl c hc,
    ?_, ?_, ?_⟩
  · match hb : buf with
    | [] => simp at hbuf
    | a :: rest =>
        rw [listChunks, dif_neg hcs]
        simp only [List.length_cons]
        have hdrop : 0 < ((a :: rest).drop chunk_size).length := by
          simp only [List.length_drop, List.length_cons]
          simp only [List.length_cons] at hbuf
          omega
        match hd : (a :: rest).drop chunk_size with
        | [] => rw [hd] at hdrop; simp at hdrop
        | b :: rest' =>
            have := listChunks_ne_nil chunk_size hcs b rest'
            have hpos : 0 < (listChunks chunk_size (b :: rest')).length :=
              List.length_pos.2 this
            omega
  · rw [write_chunked, write_chunks_full _ (fun _ _ => rfl)]
    rw [listChunks_sum_length chunk_size hcs buf.length buf le_rfl]
    simp
  · rw [write_chunked,
      write_chunks_short _ j s
        (fun idx c hidx => by simp [Nat.ne_of_lt hidx]) (fun c => by simp)
        (listChunks chunk_size buf) 0 0 (Nat.zero_le j) (by omega)
        (by simpa using hs)]
    simp

/-- Witness for C7: buffer of 5 bytes, chunk size 2, short write (1 of 2
bytes accepted) on call index 1. -/
theorem write_chunked_spec_witness :
    write_chunked (fun i c => if i = 1 then .ok 1 else .ok c.length)
        [1, 2, 3, 4, 5] 2
      = .ok (3, [[1, 2], [3, 4]]) := by
  have h := (write_chunked_spec [1, 2, 3, 4, 5] 2 1 1 (by decide) (by decide)
    (by simp [listChunks]) (by simp [listChunks])).2.2.2
  rw [h]
  simp [listChunks]

/-- Lemma: `add_tag` never touches the identity. -/
theorem add_tag_id (r : UsbDeviceRecord) (t : List Char) :
    (r.add_tag t).id = r.id := by
  rw [UsbDeviceRecord.add_tag]
  split <;> rfl

/-- Lemma: `add_tag` never touches the descriptor. -/
theorem add_tag_descriptor (r : UsbDeviceRecord) (t : List Char) :
    (r.add_tag t).descriptor = r.descriptor := by
  rw [UsbDeviceRecord.add_tag]
  split <;> rfl

/-- After `add_tag t`, `has_tag t` holds. -/
theorem has_tag_add_tag_self (r : UsbDeviceRecord) (t : List Char) :
    (r.add_tag t).has_tag t = true := by
  rw [UsbDeviceRecord.add_tag]
  by_cases ht : t ∈ r.tags
  · rw [if_pos ht]
    rw [UsbDeviceRecord.has_tag, List.any_eq_true]
    exact ⟨t, ht, by simp [eqIgnoreAsciiCase]⟩
  · rw [if_neg ht]
    rw [UsbDeviceRecord.has_tag]
    simp [eqIgnoreAsciiCase]

/-- Lemma: `add_tag` preserves every tag already present. -/
theorem has_tag_mono (r : UsbDeviceRecord) (t s : List Char)
    (h : r.has_tag s = true) : (r.add_tag t).has_tag s = true := by
  rw [UsbDeviceRecord.add_tag]
  by_cases ht : t ∈ r.tags
  · rw [if_pos ht]
    exact h
  · rw [if_neg ht]
    rw [UsbDeviceRecord.has_tag] at h ⊢
    simp only [List.any_append, Bool.or_eq_true]
    exact Or.inl h

/-- Each probe is monotone under `add_tag` (tags only ever appear positively
in the probes). -/
theorem probes_mono (r : UsbDeviceRecord) (t : List Char) :
    (is_adb_device r = true → is_adb_device (r.add_tag t) = true)
    ∧ (is_fastboot_device r = true → is_fastboot_device (r.add_tag t) = true)
    ∧ (is_apple_device r = true → is_apple_device (r.add_tag t) = true)
    ∧ (is_mtp_device r = true → is_mtp_device (r.add_tag t) = true) := by
  refine ⟨?_, ?_, ?_, ?_⟩
  · intro h
    rw [is_adb_device, add_tag_id, add_tag_descriptor]
    rw [is_adb_device] at h
    simp only [Bool.or_eq_true] at h ⊢
    rcases h with ((h | h) | h) | h
    · exact Or.inl (Or.inl (Or.inl h))
    · exact Or.inl (Or.inl (Or.inr h))
    · exact Or.inl (Or.inr h)
    · exact Or.inr (has_tag_mono r t _ h)
  · intro h
    rw [is_fastboot_device, add_tag_id, add_tag_descriptor]
    rw [is_fastboot_device] at h
    simp only [Bool.or_eq_true] at h ⊢
    rcases h with ((h | h) | h) | h
    · exact Or.inl (Or.inl (Or.inl h))
    · exact Or.inl (Or.inl (Or.inr h))
    · exact Or.inl (Or.inr h)
    · exact Or.inr (has_tag_mono r t _ h)
  · intro h
    rw [is_apple_device, add_tag_id, add_tag_descriptor]
    rw [is_apple_device] at h
    by_cases hv : r.id.vid ≠ 0x05ac
    · rw [if_pos hv] at h
      exact absurd h (by simp)
    · rw [if_neg hv] at h ⊢
      simp only [Bool.or_eq_true] at h ⊢
      rcases h with ((h | h) | h) | h
      · exact Or.inl (Or.inl (Or.inl h))
      · exact Or.inl (Or.inl (Or.inr h))
      · exact Or.inl (Or.inr h)
      · exact Or.inr (has_tag_mono r t _ h)
  · intro h
    rw [is_mtp_device, add_tag_descriptor]
    rw [is_mtp_device] at h
    simp only [Bool.or_eq_true] at h ⊢
    rcases h with ((h | h) | h) | h
    · exact Or.inl (Or.inl (Or.inl h))
    · exact Or.inl (Or.inl (Or.inr h))
    · exact Or.inl (Or.inr h)
    · exact Or.inr (has_tag_mono r t _ h)

/-- Membership in the classifier's result is exactly the corresponding
probe; the result is never empty; it is `[Unknown]` exactly when no probe
matches. -/
theorem classify_mem (r : UsbDeviceRecord) :
    (DeviceProtocol.Adb ∈ classify_device_protocols r ↔ is_adb_device r = true)
    ∧ (DeviceProtocol.Fastboot ∈ classify_device_protocols r ↔
        is_fastboot_device r = true)
    ∧ (DeviceProtocol.AppleDevice ∈ classify_device_protocols r ↔
        is_apple_device r = true)
    ∧ (DeviceProtocol.Mtp ∈ classify_device_protocols r ↔
        is_mtp_device r = true)
    ∧ (classify_device_protocols r ≠ [])
    ∧ (classify_device_protocols r = [DeviceProtocol.Unknown] ↔
        (is_adb_device r = false ∧ is_fastboot_device r = false
          ∧ is_apple_device r = false ∧ is_mtp_device r = false)) := by
  cases h1 : is_adb_device r <;> cases h2 : is_fastboot_device r <;>
    cases h3 : is_apple_device r <;> cases h4 : is_mtp_device r <;>
    simp [classify_device_protocols, h1, h2, h3, h4]

/-- C5 (counterexample): a record matching no rule classifies as `[Unknown]`,
and adding the recognized tag "apple" still classifies as `[Unknown]`:
`is_apple_device` returns early on a non-Apple vendor id before checking
tags, so the corresponding protocol does not appear. -/
theorem classify_apple_tag_not_monotone :
    let d : UsbDescriptorSummary :=
      { manufacturer := none, product := none, serial_number := none,
        device_class := none, device_subclass := none,
        device_protocol := none, usb_version := none }
    let r : UsbDeviceRecord :=
      { id := { vid := 1, pid := 1 }, descriptor := d, tags := [] }
    classify_device_protocols r = [.Unknown]
    ∧ classify_device_protocols (r.add_tag ("apple".toList)) = [.Unknown]
    ∧ DeviceProtocol.AppleDevice
        ∉ classify_device_protocols (r.add_tag ("apple".toList)) := by
  decide

/-- C5 (amended): `classify` never returns an empty set and returns exactly
`[Unknown]` when no rule matches; it is monotone in tags for the recognized
tags "adb", "fastboot" and "mtp" on every record, and for "apple" on records
whose vendor id is Apple's (0x05ac) — on other vendor ids the apple probe
returns before its tag check; and adding any tag never removes a non-Unknown
protocol that matched before. -/
theorem classify_spec (r : UsbDeviceRecord) :
    (classify_device_protocols r ≠ [])
    ∧ (classify_device_protocols r = [DeviceProtocol.Unknown] ↔
        (is_adb_device r = false ∧ is_fastboot_device r = false
          ∧ is_apple_device r = false ∧ is_mtp_device r = false))
    ∧ DeviceProtocol.Adb ∈ classify_device_protocols (r.add_tag ("adb".toList))
    ∧ DeviceProtocol.Fastboot
        ∈ classify_device_protocols (r.add_tag ("fastboot".toList))
    ∧ DeviceProtocol.Mtp ∈ classify_device_protocols (r.add_tag ("mtp".toList))
    ∧ (r.id.vid = 0x05ac → DeviceProtocol.AppleDevice
        ∈ classify_device_protocols (r.add_tag ("apple".toList)))
    ∧ (∀ (t : List Char) (p : DeviceProtocol), p ≠ .Unknown →
        p ∈ classify_device_protocols r →
        p ∈ classify_device_protocols (r.add_tag t)) := by
  refine ⟨(classify_mem r).2.2.2.2.1, (classify_mem r).2.2.2.2.2, ?_, ?_, ?_,
    ?_, ?_⟩
  · refine (classify_mem _).1.2 ?_
    rw [is_adb_device]
    simp [has_tag_add_tag_self]
  · refine (classify_mem _).2.1.2 ?_
    rw [is_fastboot_device]
    simp [has_tag_add_tag_self]
  · refine (classify_mem _).2.2.2.1.2 ?_
    rw [is_mtp_device]
    simp [has_tag_add_tag_self]
  · intro hv
    refine (classify_mem _).2.2.1.2 ?_
    rw [is_apple_device, add_tag_id]
    rw [if_neg (by simp [hv])]
    simp [has_tag_add_tag_self]
  · intro t p hp hmem
    cases p with
    | Adb =>
        exact (classify_mem _).1.2
          ((probes_mono r t).1 ((classify_mem r).1.1 hmem))
    | Fastboot =>
        exact (classify_mem _).2.1.2
          ((probes_mono r t).2.1 ((classify_mem r).2.1.1 hmem))
    | AppleDevice =>
        exact (classify_mem _).2.2.1.2
          ((probes_mono r t).2.2.1 ((classify_mem r).2.2.1.1 hmem))
    | Mtp =>
        exact (classify_mem _).2.2.2.1.2
          ((probes_mono r t).2.2.2 ((classify_mem r).2.2.2.1.1 hmem))
    | Unknown => exact absurd rfl hp

/-- Witness for the amended C5 at a concrete record carrying no tags. -/
theorem classify_spec_witness :
    let d : UsbDescriptorSummary :=
      { manufacturer := none, product := none, serial_number := none,
        device_class := none, device_subclass := none,
        device_protocol := none, usb_version := none }
    let r : UsbDeviceRecord :=
      { id := { vid := 0x05ac, pid := 1 }, descriptor := d, tags := [] }
    classify_device_protocols r ≠ []
    ∧ DeviceProtocol.Adb
        ∈ classify_device_protocols (r.add_tag ("adb".toList))
    ∧ DeviceProtocol.AppleDevice
        ∈ classify_device_protocols (r.add_tag ("apple".toList)) := by
  intro d r
  exact ⟨(classify_spec r).1, (classify_spec r).2.2.1,
    (classify_spec r).2.2.2.2.2.1 rfl⟩

/-- Lemma: `data_block_count` distributes over append. -/
theorem data_block_count_append (a b : List DfuReq) :
    data_block_count (a ++ b) = data_block_count a + data_block_count b := by
  simp [data_block_count, List.filter_append]

/-- A GETSTATUS request is not a data block. -/
theorem dbc_getstatus (tr : List DfuReq) :
    data_block_count (tr ++ [.GetStatusReq]) = data_block_count tr := by
  rw [data_block_count_append]
  rfl

/-- The empty end-of-transfer DNLOAD is not a data block. -/
theorem dbc_dnload_zero (tr : List DfuReq) (b : Nat) :
    data_block_count (tr ++ [.DnloadReq b 0]) = data_block_count tr := by
  rw [data_block_count_append]
  rfl

/-- A non-empty DNLOAD is one data block. -/
theorem dbc_dnload_pos (tr : List DfuReq) (b l : Nat) (hl : 1 ≤ l) :
    data_block_count (tr ++ [.DnloadReq b l]) = data_block_count tr + 1 := by
  obtain ⟨c, rfl⟩ : ∃ c, l = c + 1 := ⟨l - 1, by omega⟩
  rw [data_block_count_append]
  rfl

/-- Lemma: `k < ⌈total / xfer⌉ ↔ xfer * k < total` (for nonzero `xfer`): block `k`
exists exactly when its start offset is inside the firmware. -/
theorem lt_num_blocks_iff (total xfer k : Nat) (hx : 1 ≤ xfer) :
    k < num_blocks total xfer ↔ xfer * k < total := by
  rw [num_blocks, Nat.lt_iff_add_one_le, Nat.le_div_iff_mul_le (by omega)]
  have hmul : (k + 1) * xfer = xfer * k + xfer := by ring
  rw [hmul]
  generalize xfer * k = a
  omega

/-- The firmware is covered by its blocks. -/
theorem total_le_mul_num_blocks (total xfer : Nat) (hx : 1 ≤ xfer) :
    total ≤ xfer * num_blocks total xfer := by
  by_contra h
  exact absurd ((lt_num_blocks_iff total xfer (num_blocks total xfer) hx).2
    (by omega)) (by omega)

/-- During the block phase of the busy-idle mock (GETSTATUS call count
`2k` with `k < nb`), `wait_for_ready` with fuel 2 polls twice — seeing
DnBusy then DnloadIdle — and succeeds. -/
theorem wait_block (nb m k : Nat) (st : DlSt) (hk : k < nb)
    (hgs : st.gs_count = 2 * k) :
    wait_for_ready (busy_idle_mock nb m) 2 st =
      .ok { client := { st.client with state := .DfuDnloadIdle },
            gs_count := st.gs_count + 2,
            trace := st.trace ++ [.GetStatusReq, .GetStatusReq],
            progress := st.progress } := by
  have h1 : 2 * k < 2 * nb := by omega
  have h2 : 2 * k % 2 = 0 := by omega
  have h3 : 2 * k + 1 < 2 * nb := by omega
  have h4 : ¬((2 * k + 1) % 2 = 0) := by omega
  simp [wait_for_ready, mockGetStatus, busy_idle_mock, hgs, h1, h2, h3, h4,
    DfuStatus.is_ok]

/-- The manifestation phase of the busy-idle mock: after `m - q` Manifest
polls already consumed, `m + 1` remaining fuel suffices and the wait
succeeds without touching progress or the data-block count. -/
theorem manifest_mock (nb m : Nat) :
    ∀ q st, q ≤ m → st.gs_count = 2 * nb + (m - q) →
      ∃ st', manifest_wait (busy_idle_mock nb m) (q + 1) st = .ok st'
        ∧ st'.progress = st.progress
        ∧ data_block_count st'.trace = data_block_count st.trace := by
  intro q
  induction q with
  | zero =>
      intro st _ hgs
      have hi1 : ¬(st.gs_count < 2 * nb) := by omega
      have hi2 : ¬(st.gs_count < 2 * nb + m) := by omega
      refine ⟨{ client := { st.client with state := .DfuManifestWaitReset },
                gs_count := st.gs_count + 1,
                trace := st.trace ++ [.GetStatusReq],
                progress := st.progress }, ?_, rfl, dbc_getstatus st.trace⟩
      simp [manifest_wait, mockGetStatus, busy_idle_mock, hi1, hi2,
        DfuStatus.is_ok]
  | succ q ih =>
      intro st hq hgs
      have hi1 : ¬(st.gs_count < 2 * nb) := by omega
      have hi2 : st.gs_count < 2 * nb + m := by omega
      obtain ⟨st', heq, hp, hd⟩ := ih
        { client := { st.client with state := .DfuManifest },
          gs_count := st.gs_count + 1,
          trace := st.trace ++ [.GetStatusReq],
          progress := st.progress }
        (by omega) (by simp; omega)
      refine ⟨st', ?_, hp, by rw [hd, dbc_getstatus]⟩
      rw [show q + 1 + 1 = (q + 1) + 1 from rfl]
      rw [manifest_wait]
      simp only [mockGetStatus, busy_idle_mock, if_neg hi1, if_pos hi2,
        DfuStatus.is_ok, Bool.not_true, if_neg (by simp : ¬(false = true))]
      exact heq

/-- The block loop of `download` against the busy-idle mock: starting before
block `k` (GETSTATUS count `2k`, offset `min total (xfer·k)`), with `j`
blocks remaining, it succeeds, appends one progress value `min total
(xfer·(k+1+t))` per remaining block `t`, and issues exactly `j` more data
blocks. -/
theorem download_loop_mock (xfer total m : Nat) (hx : 1 ≤ xfer) :
    ∀ j k bn st fuel, k + j = num_blocks total xfer → st.gs_count = 2 * k →
      j < fuel →
      ∃ st', download_loop (busy_idle_mock (num_blocks total xfer) m) xfer
               total 2 (m + 1) fuel (min total (xfer * k)) bn st = .ok st'
        ∧ st'.progress = st.progress
            ++ (List.range j).map (fun t => min total (xfer * (k + 1 + t)))
        ∧ data_block_count st'.trace = data_block_count st.trace + j := by
  intro j
  induction j with
  | zero =>
      intro k bn st fuel hkj hgs hfuel
      obtain ⟨f, rfl⟩ : ∃ f, fuel = f + 1 := ⟨fuel - 1, by omega⟩
      have hk : k = num_blocks total xfer := by omega
      subst hk
      have hle : total ≤ xfer * num_blocks total xfer :=
        total_le_mul_num_blocks total xfer hx
      have hmin : min total (xfer * num_blocks total xfer) = total :=
        Nat.min_eq_left hle
      obtain ⟨st', heq, hp, hd⟩ := manifest_mock (num_blocks total xfer) m m
        { st with trace := st.trace ++ [.DnloadReq bn 0] } le_rfl
        (by simp [hgs])
      refine ⟨st', ?_, by simpa using hp, ?_⟩
      · rw [hmin]
        simp only [download_loop, if_neg (by omega : ¬ total < total)]
        exact heq
      · rw [hd, dbc_dnload_zero]
        omega
  | succ j ih =>
      intro k bn st fuel hkj hgs hfuel
      obtain ⟨f, rfl⟩ : ∃ f, fuel = f + 1 := ⟨fuel - 1, by omega⟩
      have hklt : k < num_blocks total xfer := by omega
      have hoff : xfer * k < total := (lt_num_blocks_iff total xfer k hx).1 hklt
      have hmin : min total (xfer * k) = xfer * k := Nat.min_eq_right (by omega)
      have hchunk : 1 ≤ min (total - xfer * k) xfer := by omega
      have hsum : xfer * k + min (total - xfer * k) xfer
          = min total (xfer * (k + 1)) := by
        have hmul : xfer * (k + 1) = xfer * k + xfer := by ring
        omega
      obtain ⟨st', heq, hp, hd⟩ := ih (k + 1) (bn + 1)
        { client := { st.client with state := .DfuDnloadIdle },
          gs_count := st.gs_count + 2,
          trace := (st.trace
            ++ [.DnloadReq bn (min (total - xfer * k) xfer)])
            ++ [.GetStatusReq, .GetStatusReq],
          progress := st.progress ++ [min total (xfer * (k + 1))] }
        f (by omega) (by simp [hgs]; omega) (by omega)
      refine ⟨st', ?_, ?_, ?_⟩
      · rw [hmin]
        simp only [download_loop, if_pos hoff]
        rw [wait_block (num_blocks total xfer) m k
          { st with trace :=
              st.trace ++ [.DnloadReq bn (min (total - xfer * k) xfer)] }
          hklt (by simp [hgs])]
        rw [hsum]
        exact heq
      · rw [hp]
        have hfg : ((fun t => min total (xfer * (k + 1 + t))) ∘ Nat.succ)
            = (fun t => min total (xfer * (k + 1 + 1 + t))) := by
          funext t
          simp only [Function.comp_apply, Nat.succ_eq_add_one]
          congr 1
          ring
        have hlist : List.map (fun t => min total (xfer * (k + 1 + t)))
              (List.range (j + 1))
            = min total (xfer * (k + 1))
              :: List.map (fun t => min total (xfer * (k + 1 + 1 + t)))
                  (List.range j) := by
          rw [List.range_succ_eq_map, List.map_cons, List.map_map, hfg]
        rw [hlist]
        simp
      · rw [hd, data_block_count_append, data_block_count_append]
        have h1 : data_block_count
            [DfuReq.DnloadReq bn (min (total - xfer * k) xfer)] = 1 := by
          obtain ⟨c, hc⟩ : ∃ c, min (total - xfer * k) xfer = c + 1 :=
            ⟨min (total - xfer * k) xfer - 1, by omega⟩
          rw [hc]
          rfl
        have h2 : data_block_count
            [DfuReq.GetStatusReq, DfuReq.GetStatusReq] = 0 := rfl
        rw [h1, h2]
        omega

/-- C2: `download` on a fresh client (cached state `DfuIdle`), against a
mock device whose GETSTATUS responses report DfuDnBusy once per block before
DfuDnloadIdle and whose manifestation phase succeeds after `m` Manifest
polls, returns success; the progress callback fires exactly once per block
(as many times as data DNLOAD requests are issued), with strictly increasing
bytes-sent values whose last value is the firmware length. -/
theorem dfu_download_mock_progress (fw : List Nat) (xfer m interface : Nat)
    (hx : 1 ≤ xfer) :
    ∃ st', dfu_download (busy_idle_mock (num_blocks fw.length xfer) m)
             (DfuClient.new interface xfer) fw 2 (m + 1)
             (num_blocks fw.length xfer + 1) = .ok st'
      ∧ st'.progress = (List.range (num_blocks fw.length xfer)).map
          (fun t => min fw.length (xfer * (1 + t)))
      ∧ st'.progress.length = num_blocks fw.length xfer
      ∧ data_block_count st'.trace = num_blocks fw.length xfer
      ∧ st'.progress.length = data_block_count st'.trace
      ∧ List.Chain' (· < ·) st'.progress
      ∧ (fw ≠ [] → st'.progress.getLast? = some fw.length) := by
  obtain ⟨st', heq, hp, hd⟩ := download_loop_mock xfer fw.length m hx
    (num_blocks fw.length xfer) 0 0
    (init_st (DfuClient.new interface xfer))
    (num_blocks fw.length xfer + 1) (by omega) rfl (by omega)
  have hzero : min fw.length (xfer * 0) = 0 := by simp
  rw [hzero] at heq
  have hfun : (fun t => min fw.length (xfer * (0 + 1 + t)))
      = fun t => min fw.length (xfer * (1 + t)) := by
    funext t
    norm_num
  rw [hfun] at hp
  have hensure : ensure_idle (busy_idle_mock (num_blocks fw.length xfer) m)
      (init_st (DfuClient.new interface xfer))
      = init_st (DfuClient.new interface xfer) := by
    simp [ensure_idle, init_st, DfuClient.new]
  have hmain : dfu_download (busy_idle_mock (num_blocks fw.length xfer) m)
      (DfuClient.new interface xfer) fw 2 (m + 1)
      (num_blocks fw.length xfer + 1) = .ok st' := by
    rw [dfu_download, hensure]
    exact heq
  have hprog : st'.progress = (List.range (num_blocks fw.length xfer)).map
      (fun t => min fw.length (xfer * (1 + t))) := by
    rw [hp]
    simp [init_st]
  have hlen : st'.progress.length = num_blocks fw.length xfer := by
    rw [hprog]
    simp
  have hdbc : data_block_count st'.trace = num_blocks fw.length xfer := by
    rw [hd]
    simp [init_st, data_block_count]
  refine ⟨st', hmain, hprog, hlen, hdbc, by rw [hlen, hdbc], ?_, ?_⟩
  · rw [hprog]
    rw [List.chain'_iff_get]
    intro i hi
    simp only [List.length_map, List.length_range] at hi
    rw [List.get_map, List.get_map]
    simp only [List.get_range]
    have hi1 : i + 1 < num_blocks fw.length xfer := by omega
    have hlt1 : xfer * (i + 1) < fw.length :=
      (lt_num_blocks_iff fw.length xfer (i + 1) hx).1 hi1
    have e1 : xfer * (1 + i) = xfer * (i + 1) := by ring
    have e2 : xfer * (1 + (i + 1)) = xfer * (i + 1) + xfer := by ring
    rw [e1, e2]
    omega
  · intro hfw
    have htot : 1 ≤ fw.length := by
      cases fw with
      | nil => exact absurd rfl hfw
      | cons a l => simp
    have hnb : 1 ≤ num_blocks fw.length xfer := by
      have := (lt_num_blocks_iff fw.length xfer 0 hx).2 (by omega)
      omega
    obtain ⟨p, hp2⟩ : ∃ p, num_blocks fw.length xfer = p + 1 :=
      ⟨num_blocks fw.length xfer - 1, by omega⟩
    rw [hprog, hp2, List.range_succ, List.map_append]
    simp only [List.map_cons, List.map_nil]
    rw [List.getLast?_concat]
    have hcover : fw.length ≤ xfer * (1 + p) := by
      have := total_le_mul_num_blocks fw.length xfer hx
      rw [hp2] at this
      have e : xfer * (p + 1) = xfer * (1 + p) := by ring
      omega
    rw [Nat.min_eq_left hcover]

/-- Witness for C2: three-byte firmware, transfer size 2, one Manifest poll
before ManifestWaitReset. -/
theorem dfu_download_mock_progress_witness :
    ∃ st', dfu_download (busy_idle_mock (num_blocks (List.length [1, 2, 3]) 2) 1)
        (DfuClient.new 0 2) [1, 2, 3] 2 (1 + 1)
        (num_blocks (List.length [1, 2, 3]) 2 + 1) = .ok st'
      ∧ List.Chain' (· < ·) st'.progress := by
  obtain ⟨st', h1, _, _, _, _, h6, _⟩ :=
    dfu_download_mock_progress [1, 2, 3] 2 1 0 (by norm_num)
  exact ⟨st', h1, h6⟩

/-- Lemma: `wait_for_ready` only ever appends to the request trace. -/
theorem wait_for_ready_trace (gs : GsOracle) :
    ∀ fuel st, ∃ t, ((wait_for_ready gs fuel st).st).trace = st.trace ++ t := by
  intro fuel
  induction fuel with
  | zero => intro st; exact ⟨[], by simp [wait_for_ready, RunRes.st]⟩
  | succ fuel ih =>
      intro st
      rw [wait_for_ready]
      split
      · refine ⟨[.GetStatusReq], ?_⟩
        simp [mockGetStatus, RunRes.st]
      · split <;>
        first
        | (refine ⟨[.GetStatusReq], ?_⟩
           simp [mockGetStatus, RunRes.st]
           done)
        | (obtain ⟨t', ht'⟩ := ih
             { client := { interface := st.client.interface,
                           transfer_size := st.client.transfer_size,
                           timeout_ms := st.client.timeout_ms,
                           state := (gs st.gs_count).2 },
               gs_count := st.gs_count + 1,
               trace := st.trace ++ [.GetStatusReq],
               progress := st.progress }
           refine ⟨.GetStatusReq :: t', ?_⟩
           exact ht'.trans (by simp))

/-- Lemma: `manifest_wait` only ever appends to the request trace. -/
theorem manifest_wait_trace (gs : GsOracle) :
    ∀ fuel st, ∃ t, ((manifest_wait gs fuel st).st).trace = st.trace ++ t := by
  intro fuel
  induction fuel with
  | zero => intro st; exact ⟨[], by simp [manifest_wait, RunRes.st]⟩
  | succ fuel ih =>
      intro st
      rw [manifest_wait]
      split
      · refine ⟨[.GetStatusReq], ?_⟩
        simp [mockGetStatus, RunRes.st]
      · split <;>
        first
        | (refine ⟨[.GetStatusReq], ?_⟩
           simp [mockGetStatus, RunRes.st]
           done)
        | (obtain ⟨t', ht'⟩ := ih
             { client := { interface := st.client.interface,
                           transfer_size := st.client.transfer_size,
                           timeout_ms := st.client.timeout_ms,
                           state := (gs st.gs_count).2 },
               gs_count := st.gs_count + 1,
               trace := st.trace ++ [.GetStatusReq],
               progress := st.progress }
           refine ⟨.GetStatusReq :: t', ?_⟩
           exact ht'.trans (by simp))

/-- Lemma: `download_loop` only ever appends to the request trace. -/
theorem download_loop_trace (gs : GsOracle) (xfer total wf mf : Nat) :
    ∀ fuel offset bn st, ∃ t,
      ((download_loop gs xfer total wf mf fuel offset bn st).st).trace
        = st.trace ++ t := by
  intro fuel
  induction fuel with
  | zero => intro offset bn st; exact ⟨[], by simp [download_loop, RunRes.st]⟩
  | succ fuel ih =>
      intro offset bn st
      simp only [download_loop]
      split
      · obtain ⟨tw, htw⟩ := wait_for_ready_trace gs wf
          { st with trace := st.trace
              ++ [.DnloadReq bn (min (total - offset) xfer)] }
        rcases hw : wait_for_ready gs wf
            { st with trace := st.trace
                ++ [.DnloadReq bn (min (total - offset) xfer)] }
          with st₂ | st₂ | st₂
        · rw [hw] at htw
          simp only [RunRes.st] at htw
          obtain ⟨t', ht'⟩ := ih (offset + min (total - offset) xfer) (bn + 1)
            { st₂ with progress :=
                st₂.progress ++ [offset + min (total - offset) xfer] }
          refine ⟨.DnloadReq bn (min (total - offset) xfer) :: (tw ++ t'), ?_⟩
          exact ht'.trans (by simp [htw])
        · rw [hw] at htw
          simp only [RunRes.st] at htw
          refine ⟨.DnloadReq bn (min (total - offset) xfer) :: tw, ?_⟩
          exact htw.trans (by simp)
        · rw [hw] at htw
          simp only [RunRes.st] at htw
          refine ⟨.DnloadReq bn (min (total - offset) xfer) :: tw, ?_⟩
          exact htw.trans (by simp)
      · obtain ⟨tm, htm⟩ := manifest_wait_trace gs mf
          { st with trace := st.trace ++ [.DnloadReq bn 0] }
        refine ⟨.DnloadReq bn 0 :: tm, ?_⟩
        exact htm.trans (by simp)

/-- When the offset is still inside the firmware, the first request the
block loop issues is the data DNLOAD of the current block — everything else
comes after it in the trace. -/
theorem download_loop_first_req (gs : GsOracle)
    (xfer total wf mf l offset bn : Nat) (st : DlSt) (h : offset < total) :
    ∃ t, ((download_loop gs xfer total wf mf (l + 1) offset bn st).st).trace
      = st.trace ++ (DfuReq.DnloadReq bn (min (total - offset) xfer) :: t) := by
  simp only [download_loop]
  rw [if_pos h]
  obtain ⟨tw, htw⟩ := wait_for_ready_trace gs wf
    { st with trace := st.trace
        ++ [.DnloadReq bn (min (total - offset) xfer)] }
  rcases hw : wait_for_ready gs wf
      { st with trace := st.trace
          ++ [.DnloadReq bn (min (total - offset) xfer)] }
    with st₂ | st₂ | st₂
  · rw [hw] at htw
    simp only [RunRes.st] at htw
    obtain ⟨t', ht'⟩ := download_loop_trace gs xfer total wf mf l
      (offset + min (total - offset) xfer) (bn + 1)
      { st₂ with progress :=
          st₂.progress ++ [offset + min (total - offset) xfer] }
    refine ⟨tw ++ t', ?_⟩
    exact ht'.trans (by simp [htw])
  · rw [hw] at htw
    simp only [RunRes.st] at htw
    refine ⟨tw, ?_⟩
    exact htw.trans (by simp)
  · rw [hw] at htw
    simp only [RunRes.st] at htw
    refine ⟨tw, ?_⟩
    exact htw.trans (by simp)

/-- C10: a fresh `DfuClient` has cached state `DfuIdle`; the shared
abort-and-repoll preamble of `download`/`upload` is therefore a no-op on it;
and with any oracle, `download` on a fresh client issues the first data
DNLOAD (block 0, `min total transfer_size` bytes) as its very first request
— no ABORT, no preliminary GETSTATUS. -/
theorem fresh_client_skips_preamble (interface xfer : Nat) (gs : GsOracle)
    (fw : List Nat) (wf mf lf : Nat) (hfw : fw ≠ []) (hlf : 1 ≤ lf) :
    (DfuClient.new interface xfer).state = .DfuIdle
    ∧ ensure_idle gs (init_st (DfuClient.new interface xfer))
        = init_st (DfuClient.new interface xfer)
    ∧ ((dfu_download gs (DfuClient.new interface xfer) fw wf mf lf).st).trace.head?
        = some (.DnloadReq 0 (min fw.length xfer)) := by
  have hensure : ensure_idle gs (init_st (DfuClient.new interface xfer))
      = init_st (DfuClient.new interface xfer) := by
    simp [ensure_idle, init_st, DfuClient.new]
  refine ⟨rfl, hensure, ?_⟩
  obtain ⟨l, rfl⟩ : ∃ l, lf = l + 1 := ⟨lf - 1, by omega⟩
  have htot : 0 < fw.length := by
    cases fw with
    | nil => exact absurd rfl hfw
    | cons a t => simp
  have hxf : (DfuClient.new interface xfer).transfer_size = xfer := rfl
  rw [dfu_download, hensure, hxf]
  obtain ⟨t, ht⟩ := download_loop_first_req gs xfer fw.length wf mf l 0 0
    (init_st (DfuClient.new interface xfer)) htot
  rw [ht]
  simp [init_st]

/-- Witness for C10: one-byte firmware against the busy-idle mock. -/
theorem fresh_client_skips_preamble_witness :
    (DfuClient.new 0 2).state = .DfuIdle
    ∧ ((dfu_download (busy_idle_mock 1 0) (DfuClient.new 0 2)
          [5] 2 1 1).st).trace.head?
        = some (.DnloadReq 0 (min (List.length [5]) 2)) := by
  have h := fresh_client_skips_preamble 0 2 (busy_idle_mock 1 0) [5] 2 1 1
    (by decide) (by decide)
  exact ⟨h.1, h.2.2⟩

end Bootforge
